import Mathlib

/-!
Shallow embedding of the book recommendation engine
(`knn_recommender.py`: `softmax` and `generate_book_recommendations`).

Item and user identifiers are natural numbers.  Ratings and scores live in an
arbitrary linear ordered field `α`; the theorems instantiate `α := ℝ` with
`Real.sqrt` and `Real.exp` supplied for the square root used by cosine
similarity and the exponential used by softmax.  A missing rating is `none`.
The integer count parameters `top_n_similar_users` and `num_recs` are taken as
natural numbers; for a nonnegative count `n`, the pandas `head(n)` operation is
`List.take n`.
-/

abbrev ItemId := Nat
abbrev UserId := Nat

/-- One row of the metadata table: the values attached to an ISBN key in
`book_metadata_dict` (built upstream with keys Book-Title and Book-Author). -/
structure BookMeta where
  title : String
  author : String
deriving DecidableEq

/-- The user-item rating matrix `user_item_matrix_df`: column labels (ISBNs)
and rows, each row a user id with its ratings aligned to the columns;
`none` is a missing entry (NaN). -/
structure RatingMatrix (α : Type) where
  columns : List ItemId
  rows : List (UserId × List (Option α))

/-- One element of the returned list: the dictionary with keys
title, author, isbn, score built at the end of the function. -/
structure BookRec (α : Type) where
  title : String
  author : String
  isbn : ItemId
  score : α
deriving DecidableEq

variable {α : Type} [LinearOrderedField α] [DecidableEq α]

/-- Dot product of two equally long vectors (`np.dot` on aligned vectors). -/
def dotL (a b : List α) : α :=
  ((a.zip b).map fun p => p.1 * p.2).sum

/-- Cosine similarity `dot(a,b) / (‖a‖·‖b‖)` as computed by
`sklearn.metrics.pairwise.cosine_similarity` on one pair of rows, where
`‖x‖ = sqrt (dot x x)`.  Division by zero is the junk value `0`, which agrees
with the convention that the similarity is `0` when either vector is all-zero
(the numerator is then `0` as well). -/
def cosineSim (sqrt : α → α) (a b : List α) : α :=
  dotL a b / (sqrt (dotL a a) * sqrt (dotL b b))

/-- Effect of the assignment `new_user_vector[isbn] = 1.0` on the vector
aligned with `columns`. -/
def setEntryOne (columns : List ItemId) (v : List α) (isbn : ItemId) : List α :=
  (columns.zip v).map fun p => if p.1 = isbn then 1 else p.2

/-- The synthetic preference vector: start from the all-zero series indexed by
the matrix columns and run the loop over `liked_isbns`, setting the entry to
`1.0` whenever the ISBN occurs among the columns. -/
def prefVector (columns : List ItemId) (liked : List ItemId) : List α :=
  liked.foldl
    (fun v i => if i ∈ columns then setEntryOne columns v i else v)
    (columns.map fun _ => (0 : α))

/-- `fillna(0)` applied to one row: missing entries become `0`. -/
def fillRow (r : List (Option α)) : List α :=
  r.map fun o => o.getD 0

/-- `similarity_series`: every user row paired with its ratings and its cosine
similarity against the synthetic vector, computed on the zero-filled matrix. -/
def simRows (sqrt : α → α) (liked : List ItemId) (m : RatingMatrix α) :
    List (UserId × List (Option α) × α) :=
  m.rows.map fun p =>
    (p.1, p.2, cosineSim sqrt (prefVector m.columns liked) (fillRow p.2))

/-- `positive_similarity_users`: keep the rows with strictly positive
similarity. -/
def positiveSimRows (sqrt : α → α) (liked : List ItemId) (m : RatingMatrix α) :
    List (UserId × List (Option α) × α) :=
  (simRows sqrt liked m).filter fun t => 0 < t.2.2

/-- `top_similar_users_with_sim` together with the rows retrieved by
`loc` for the selected users: sort by similarity descending and keep the first
`K`. -/
def selectedNeighbors (sqrt : α → α) (liked : List ItemId) (m : RatingMatrix α)
    (K : ℕ) : List (UserId × List (Option α) × α) :=
  (List.insertionSort (fun a b => b.2.2 ≤ a.2.2)
    (positiveSimRows sqrt liked m)).take K

/-- `potential_recommendation_books_unliked`: the set difference
`columns.difference(liked_isbns)`, which pandas returns sorted. -/
def candidateItems (liked : List ItemId) (m : RatingMatrix α) : List ItemId :=
  List.insertionSort (fun a b => a ≤ b) (m.columns.filter fun c => c ∉ liked)

/-- The entry of a row (aligned with `columns`) at column label `c`. -/
def entry (columns : List ItemId) (r : List (Option α)) (c : ItemId) :
    Option α :=
  ((columns.zip r).lookup c).join

/-- `books_rated_by_any_similar_user_unliked`: candidates with at least one
non-missing rating among the selected neighbor rows. -/
def ratedCandidates (sqrt : α → α) (liked : List ItemId) (m : RatingMatrix α)
    (K : ℕ) : List ItemId :=
  (candidateItems liked m).filter fun c =>
    (selectedNeighbors sqrt liked m K).any fun t =>
      (entry m.columns t.2.1 c).isSome

/-- `user_item_matrix_df.mean(axis=1)` for one row: the mean of the
non-missing ratings (pandas skips NaN). -/
def rowMean (r : List (Option α)) : α :=
  (r.filterMap id).sum / ((r.filterMap id).length : α)

/-- The inner accumulation loop for one candidate item: over the selected
neighbors in order, add `similarity_score * (user_rating - user_mean)` when the
rating is non-missing, else leave the accumulator unchanged. -/
def weightedDevSum (columns : List ItemId)
    (selected : List (UserId × List (Option α) × α)) (c : ItemId) : α :=
  selected.foldl
    (fun acc t =>
      match entry columns t.2.1 c with
      | some r => acc + t.2.2 * (r - rowMean t.2.1)
      | none => acc)
    0

/-- `sum_abs_similarities`: sum of the absolute similarity weights of the
selected neighbors. -/
def sumAbsSim (selected : List (UserId × List (Option α) × α)) : α :=
  (selected.map fun t => |t.2.2|).sum

/-- `predicted_book_scores[book_isbn]`: the accumulated weighted deviation sum
divided by the sum of absolute similarities. -/
def predictedScore (columns : List ItemId)
    (selected : List (UserId × List (Option α) × α)) (c : ItemId) : α :=
  weightedDevSum columns selected c / sumAbsSim selected

/-- `book_scores`: the rated candidates with their predicted scores, keeping
only the strictly positive ones. -/
def positiveScores (sqrt : α → α) (liked : List ItemId) (m : RatingMatrix α)
    (K : ℕ) : List (ItemId × α) :=
  ((ratedCandidates sqrt liked m K).map fun c =>
    (c, predictedScore m.columns (selectedNeighbors sqrt liked m K) c)).filter
    fun p => 0 < p.2

/-- `np.max` over the values of a series (the series is non-empty whenever the
code applies it). -/
def maxList : List α → α
  | [] => 0
  | x :: xs => xs.foldl max x

/-- The `softmax` helper of the source: on an empty series return the empty
series, otherwise `e_x = exp(x - max x)` followed by `e_x / e_x.sum()`. -/
def softmax (exp : α → α) (xs : List α) : List α :=
  if xs = [] then []
  else
    (xs.map fun x => exp (x - maxList xs)).map
      fun y => y / (xs.map fun x => exp (x - maxList xs)).sum

/-- `softmax_scores.sort_values(ascending=False)`: the positive-score
candidates paired with their softmax values, sorted descending by value. -/
def finalRanking (sqrt exp : α → α) (liked : List ItemId) (m : RatingMatrix α)
    (K : ℕ) : List (ItemId × α) :=
  List.insertionSort (fun a b => b.2 ≤ a.2)
    (((positiveScores sqrt liked m K).map Prod.fst).zip
      (softmax exp ((positiveScores sqrt liked m K).map Prod.snd)))

/-- Building one output dictionary: metadata lookup with the placeholder
strings used when the ISBN has no metadata record. -/
def mkBookRec (meta : List (ItemId × BookMeta)) (p : ItemId × α) : BookRec α :=
  match meta.lookup p.1 with
  | some b => ⟨b.title, b.author, p.1, p.2⟩
  | none => ⟨"Unknown Title", "Unknown Author", p.1, p.2⟩

/-- The whole of `generate_book_recommendations`, with its early returns in
source order: empty liked list; no liked ISBN among the columns; no selected
neighbor; no candidate rated by a selected neighbor; zero sum of absolute
similarities; no strictly positive predicted score.  Otherwise softmax the
positive scores, sort descending, take `num_recs` and attach metadata. -/
def generate_book_recommendations (sqrt exp : α → α) (liked : List ItemId)
    (m : RatingMatrix α) (meta : List (ItemId × BookMeta)) (K N : ℕ) :
    List (BookRec α) :=
  if liked = [] then []
  else if ∀ i ∈ liked, i ∉ m.columns then []
  else if selectedNeighbors sqrt liked m K = [] then []
  else if ratedCandidates sqrt liked m K = [] then []
  else if sumAbsSim (selectedNeighbors sqrt liked m K) = 0 then []
  else if positiveScores sqrt liked m K = [] then []
  else ((finalRanking sqrt exp liked m K).take N).map (mkBookRec meta)

/-- The softmax formula as the specification words it, without the
max-subtraction: `score_i = exp x_i / Σ_j exp x_j` over the same list.  This
definition follows the spec text and is compared against the source's
max-subtracted `softmax`. -/
def softmaxPlain (exp : α → α) (xs : List α) : List α :=
  xs.map fun x => exp x / (xs.map exp).sum

/-- The pandas `fillna(value, inplace)` call as a state transformer on the
stored data frame: the first component is the returned filled frame, the
second is the stored frame after the call, which is the filled frame only when
`inplace` is requested.  Line 49 of the source uses the default
`inplace=False`. -/
def fillnaOp (inplace : Bool) (v : α) (m : RatingMatrix α) :
    RatingMatrix α × RatingMatrix α :=
  (⟨m.columns, m.rows.map fun p => (p.1, p.2.map fun o => some (o.getD v))⟩,
   if inplace then
     ⟨m.columns, m.rows.map fun p => (p.1, p.2.map fun o => some (o.getD v))⟩
   else m)

/-- The recommendation call as a state transformer on the stored rating
matrix: the only operation of the source with a mutating variant is the
`fillna(0)` of line 49, called without `inplace`; every other access
(`values`, `loc`, `mean`, `columns.difference`, element reads) is a read, so
the stored matrix after the call is the second component of
`fillnaOp false 0`. -/
def generate_book_recommendations_st (sqrt exp : α → α) (liked : List ItemId)
    (m : RatingMatrix α) (meta : List (ItemId × BookMeta)) (K N : ℕ) :
    List (BookRec α) × RatingMatrix α :=
  (generate_book_recommendations sqrt exp liked (fillnaOp false 0 m).2 meta K N,
   (fillnaOp false 0 m).2)

/-- A concrete sample instance used by witnesses and counterexamples: one
user with ratings 3 and 4 on the two items 1 and 2, and the caller likes
item 1.  The rating row has norm `sqrt 25 = 5`, so every similarity is
rational. -/
def sampleMatrix (β : Type) [LinearOrderedField β] : RatingMatrix β :=
  ⟨[1, 2], [(1, [some 3, some 4])]⟩

/-- Metadata for the sample: item 2 carries title T2 and author A2. -/
def sampleMeta : List (ItemId × BookMeta) := [(2, ⟨"T2", "A2"⟩)]

/-! ### Helper lemmas -/

lemma weightedDevSum_foldl (columns : List ItemId) (c : ItemId) (a : α) :
    ∀ selected : List (UserId × List (Option α) × α),
      selected.foldl
        (fun acc t =>
          match entry columns t.2.1 c with
          | some r => acc + t.2.2 * (r - rowMean t.2.1)
          | none => acc)
        a =
      a + (selected.filterMap fun t =>
        (entry columns t.2.1 c).map fun r => t.2.2 * (r - rowMean t.2.1)).sum
  | [] => by simp
  | t :: ts => by
    cases h : entry columns t.2.1 c with
    | none =>
        simp only [List.foldl_cons, List.filterMap_cons, h]
        exact weightedDevSum_foldl columns c a ts
    | some r =>
        simp only [List.foldl_cons, List.filterMap_cons, h, Option.map_some',
          List.sum_cons]
        rw [weightedDevSum_foldl columns c (a + t.2.2 * (r - rowMean t.2.1)) ts]
        ring

lemma softmax_length (exp : α → α) (xs : List α) :
    (softmax exp xs).length = xs.length := by
  unfold softmax
  split <;> simp_all

lemma finalRanking_length (sqrt exp : α → α) (liked : List ItemId)
    (m : RatingMatrix α) (K : ℕ) :
    (finalRanking sqrt exp liked m K).length =
      (positiveScores sqrt liked m K).length := by
  unfold finalRanking
  rw [(List.perm_insertionSort _ _).length_eq, List.length_zip, softmax_length]
  simp

lemma genRec_cases (sqrt exp : α → α) (liked : List ItemId)
    (m : RatingMatrix α) (meta : List (ItemId × BookMeta)) (K N : ℕ) :
    generate_book_recommendations sqrt exp liked m meta K N = [] ∨
    generate_book_recommendations sqrt exp liked m meta K N =
      ((finalRanking sqrt exp liked m K).take N).map (mkBookRec meta) := by
  unfold generate_book_recommendations
  split
  · exact Or.inl rfl
  split
  · exact Or.inl rfl
  split
  · exact Or.inl rfl
  split
  · exact Or.inl rfl
  split
  · exact Or.inl rfl
  split
  · exact Or.inl rfl
  exact Or.inr rfl

/-! ### Claim theorems -/

/-- Claim C1: for every candidate item, the predicted score is the sum, over
exactly those selected neighbors having a non-missing rating for the item, of
`similarity_weight * (neighbor_rating - neighbor_mean_rating)`, divided by the
sum of absolute similarity weights of the selected neighbors; the mean of a
neighbor is `rowMean`, the mean of only its non-missing ratings in the full
matrix, and neighbors without a rating contribute nothing. -/
theorem C1_predicted_score_formula (sqrt : α → α) (liked : List ItemId)
    (m : RatingMatrix α) (K : ℕ) (c : ItemId) :
    predictedScore m.columns (selectedNeighbors sqrt liked m K) c =
      ((selectedNeighbors sqrt liked m K).filterMap fun t =>
        (entry m.columns t.2.1 c).map fun r => t.2.2 * (r - rowMean t.2.1)).sum
        / sumAbsSim (selectedNeighbors sqrt liked m K) := by
  unfold predictedScore weightedDevSum
  rw [weightedDevSum_foldl, zero_add]


lemma mkBookRec_isbn (meta : List (ItemId × BookMeta)) (p : ItemId × α) :
    (mkBookRec meta p).isbn = p.1 := by
  unfold mkBookRec
  cases meta.lookup p.1 <;> rfl

lemma mkBookRec_score (meta : List (ItemId × BookMeta)) (p : ItemId × α) :
    (mkBookRec meta p).score = p.2 := by
  unfold mkBookRec
  cases meta.lookup p.1 <;> rfl

lemma mem_positiveScores {sqrt : α → α} {liked : List ItemId}
    {m : RatingMatrix α} {K : ℕ} {p : ItemId × α}
    (hp : p ∈ positiveScores sqrt liked m K) :
    p.1 ∈ ratedCandidates sqrt liked m K ∧ 0 < p.2 := by
  unfold positiveScores at hp
  have h1 := List.mem_filter.mp hp
  obtain ⟨c, hc, heq⟩ := List.mem_map.mp h1.1
  refine ⟨?_, by simpa using h1.2⟩
  rw [← heq]
  exact hc

lemma mem_ratedCandidates_not_liked {sqrt : α → α} {liked : List ItemId}
    {m : RatingMatrix α} {K : ℕ} {c : ItemId}
    (hc : c ∈ ratedCandidates sqrt liked m K) : c ∉ liked := by
  unfold ratedCandidates at hc
  have h1 := (List.mem_filter.mp hc).1
  unfold candidateItems at h1
  have h2 := (List.perm_insertionSort _ _).mem_iff.mp h1
  simpa using (List.mem_filter.mp h2).2

lemma mem_finalRanking_fst {sqrt exp : α → α} {liked : List ItemId}
    {m : RatingMatrix α} {K : ℕ} {p : ItemId × α}
    (hp : p ∈ finalRanking sqrt exp liked m K) :
    p.1 ∈ ratedCandidates sqrt liked m K := by
  obtain ⟨a, b⟩ := p
  unfold finalRanking at hp
  have h1 := (List.perm_insertionSort _ _).mem_iff.mp hp
  have h2 := (List.of_mem_zip h1).1
  obtain ⟨q, hq, hqa⟩ := List.mem_map.mp h2
  have h3 := (mem_positiveScores hq).1
  rw [hqa] at h3
  exact h3

/-- Claim C3: every item identifier in the returned list is absent from the
supplied liked-item collection. -/
theorem C3_result_disjoint_from_liked (sqrt exp : α → α) (liked : List ItemId)
    (m : RatingMatrix α) (meta : List (ItemId × BookMeta)) (K N : ℕ) :
    ∀ r ∈ generate_book_recommendations sqrt exp liked m meta K N,
      r.isbn ∉ liked := by
  intro r hr
  rcases genRec_cases sqrt exp liked m meta K N with h | h <;> rw [h] at hr
  · simp at hr
  · obtain ⟨p, hp, hpr⟩ := List.mem_map.mp hr
    have hpf : p ∈ finalRanking sqrt exp liked m K := List.take_subset _ _ hp
    have h2 := mem_ratedCandidates_not_liked (mem_finalRanking_fst hpf)
    rw [← hpr, mkBookRec_isbn]
    exact h2

lemma mem_selectedNeighbors {sqrt : α → α} {liked : List ItemId}
    {m : RatingMatrix α} {K : ℕ} {t : UserId × List (Option α) × α}
    (ht : t ∈ selectedNeighbors sqrt liked m K) :
    (t.1, t.2.1) ∈ m.rows ∧
    t.2.2 = cosineSim sqrt (prefVector m.columns liked) (fillRow t.2.1) ∧
    0 < t.2.2 := by
  unfold selectedNeighbors at ht
  have h1 := List.take_subset _ _ ht
  have h2 := (List.perm_insertionSort _ _).mem_iff.mp h1
  unfold positiveSimRows at h2
  have h3 := List.mem_filter.mp h2
  obtain ⟨p, hp, hpt⟩ := List.mem_map.mp h3.1
  obtain ⟨u, r⟩ := p
  refine ⟨?_, ?_, by simpa using h3.2⟩
  · rw [← hpt]
    exact hp
  · rw [← hpt]

lemma dotL_eq_zero_left {a b : List α} (h : ∀ x ∈ a, x = 0) : dotL a b = 0 := by
  apply List.sum_eq_zero
  intro x hx
  obtain ⟨p, hp, hpx⟩ := List.mem_map.mp hx
  have := h p.1 (List.of_mem_zip hp).1
  rw [← hpx, this, zero_mul]

lemma dotL_eq_zero_right {a b : List α} (h : ∀ x ∈ b, x = 0) : dotL a b = 0 := by
  apply List.sum_eq_zero
  intro x hx
  obtain ⟨p, hp, hpx⟩ := List.mem_map.mp hx
  have := h p.2 (List.of_mem_zip hp).2
  rw [← hpx, this, mul_zero]

/-- Claim C4: the neighbor-selection stage pairs every matrix row with its
cosine similarity against the preference vector on the zero-filled matrix
(`0` when either vector is all-zero), keeps exactly the rows with strictly
positive similarity, sorts them descending, and retains at most `K` of them,
so the selected list has length at most `K` and only positive similarities. -/
theorem C4_neighbor_selection (sqrt : α → α) (liked : List ItemId)
    (m : RatingMatrix α) (K : ℕ) :
    (∀ t ∈ selectedNeighbors sqrt liked m K,
      (t.1, t.2.1) ∈ m.rows ∧
      t.2.2 = cosineSim sqrt (prefVector m.columns liked) (fillRow t.2.1) ∧
      0 < t.2.2) ∧
    (∀ p ∈ m.rows,
      (0 < cosineSim sqrt (prefVector m.columns liked) (fillRow p.2) ↔
        (p.1, p.2, cosineSim sqrt (prefVector m.columns liked) (fillRow p.2)) ∈
          positiveSimRows sqrt liked m)) ∧
    (selectedNeighbors sqrt liked m K).length ≤ K ∧
    (selectedNeighbors sqrt liked m K).Pairwise (fun a b => b.2.2 ≤ a.2.2) ∧
    (∀ a b : List α,
      ((∀ x ∈ a, x = 0) ∨ (∀ x ∈ b, x = 0)) → cosineSim sqrt a b = 0) := by
  refine ⟨fun t ht => mem_selectedNeighbors ht, ?_, ?_, ?_, ?_⟩
  · intro p hp
    constructor
    · intro hpos
      unfold positiveSimRows
      rw [List.mem_filter]
      refine ⟨List.mem_map.mpr ⟨p, hp, rfl⟩, by simpa using hpos⟩
    · intro hmem
      unfold positiveSimRows at hmem
      simpa using (List.mem_filter.mp hmem).2
  · rw [selectedNeighbors, List.length_take]
    exact Nat.min_le_left _ _
  · haveI : IsTotal (UserId × List (Option α) × α) (fun a b => b.2.2 ≤ a.2.2) :=
      ⟨fun a b => le_total b.2.2 a.2.2⟩
    haveI : IsTrans (UserId × List (Option α) × α) (fun a b => b.2.2 ≤ a.2.2) :=
      ⟨fun _ _ _ h1 h2 => le_trans h2 h1⟩
    have hs : List.Sorted
        (fun (a b : UserId × List (Option α) × α) => b.2.2 ≤ a.2.2)
        (List.insertionSort (fun a b => b.2.2 ≤ a.2.2)
          (positiveSimRows sqrt liked m)) :=
      List.sorted_insertionSort _ _
    exact hs.sublist (List.take_sublist _ _)
  · intro a b hab
    rcases hab with h | h
    · rw [cosineSim, dotL_eq_zero_left h, zero_div]
    · rw [cosineSim, dotL_eq_zero_right h, zero_div]

/-! ### Evaluation of the sample instance -/

lemma sample_pref : prefVector [1, 2] [1] = [(1 : ℝ), 0] := by
  norm_num [prefVector, setEntryOne]

lemma sample_cos : cosineSim Real.sqrt [(1 : ℝ), 0] [3, 4] = 3 / 5 := by
  have h1 : dotL [(1 : ℝ), 0] [3, 4] = 3 := by norm_num [dotL]
  have h2 : dotL [(1 : ℝ), 0] [1, 0] = 1 := by norm_num [dotL]
  have h3 : dotL [(3 : ℝ), 4] [3, 4] = 25 := by norm_num [dotL]
  have h25 : Real.sqrt 25 = 5 := by
    rw [show (25 : ℝ) = 5 ^ 2 by norm_num]
    exact Real.sqrt_sq (by norm_num)
  rw [cosineSim, h1, h2, h3, Real.sqrt_one, h25]
  norm_num

lemma sample_simRows : simRows Real.sqrt [1] (sampleMatrix ℝ) =
    [(1, [some 3, some 4], (3 : ℝ) / 5)] := by
  have : fillRow [some (3 : ℝ), some 4] = [3, 4] := by norm_num [fillRow]
  simp only [simRows, sampleMatrix, List.map_cons, List.map_nil, this]
  rw [sample_pref, sample_cos]

lemma sample_posSim : positiveSimRows Real.sqrt [1] (sampleMatrix ℝ) =
    [(1, [some 3, some 4], (3 : ℝ) / 5)] := by
  rw [positiveSimRows, sample_simRows]
  simp only [List.filter_cons, List.filter_nil, decide_eq_true_eq]
  rw [if_pos]
  norm_num

lemma sample_selected : selectedNeighbors Real.sqrt [1] (sampleMatrix ℝ) 30 =
    [(1, [some 3, some 4], (3 : ℝ) / 5)] := by
  rw [selectedNeighbors, sample_posSim]
  simp [List.insertionSort]

lemma sample_candidates : candidateItems [1] (sampleMatrix ℝ) = [2] := by
  simp [candidateItems, sampleMatrix, List.insertionSort, List.filter]

lemma sample_entry : entry [1, 2] [some (3 : ℝ), some 4] 2 = some 4 := by
  simp [entry, List.lookup]

lemma sample_rated : ratedCandidates Real.sqrt [1] (sampleMatrix ℝ) 30 = [2] := by
  rw [ratedCandidates, sample_candidates, sample_selected]
  simp only [List.filter_cons, List.filter_nil, List.any_cons, List.any_nil]
  rw [show (sampleMatrix ℝ).columns = [1, 2] from rfl, sample_entry]
  simp

lemma sample_rowMean : rowMean [some (3 : ℝ), some 4] = 7 / 2 := by
  norm_num [rowMean, List.filterMap]

lemma sample_sumAbs :
    sumAbsSim [(1, [some 3, some 4], (3 : ℝ) / 5)] = 3 / 5 := by
  norm_num [sumAbsSim, abs_of_pos]

lemma sample_score :
    predictedScore [1, 2] [(1, [some 3, some 4], (3 : ℝ) / 5)] 2 = 1 / 2 := by
  rw [predictedScore, weightedDevSum, List.foldl_cons, sample_entry]
  simp only [List.foldl_nil, sample_sumAbs]
  rw [sample_rowMean]
  norm_num

lemma sample_positiveScores :
    positiveScores Real.sqrt [1] (sampleMatrix ℝ) 30 = [(2, (1 : ℝ) / 2)] := by
  rw [positiveScores, sample_rated, sample_selected]
  simp only [List.map_cons, List.map_nil]
  rw [show (sampleMatrix ℝ).columns = [1, 2] from rfl, sample_score]
  simp only [List.filter_cons, List.filter_nil, decide_eq_true_eq]
  rw [if_pos]
  norm_num

lemma sample_softmax : softmax Real.exp [(1 : ℝ) / 2] = [1] := by
  rw [softmax, if_neg (by simp)]
  simp [maxList, Real.exp_zero]

lemma sample_finalRanking :
    finalRanking Real.sqrt Real.exp [1] (sampleMatrix ℝ) 30 = [(2, (1 : ℝ))] := by
  rw [finalRanking, sample_positiveScores]
  simp only [List.map_cons, List.map_nil]
  rw [sample_softmax]
  simp [List.insertionSort]

lemma sample_result :
    generate_book_recommendations Real.sqrt Real.exp [1] (sampleMatrix ℝ)
      sampleMeta 30 5 = [⟨"T2", "A2", 2, (1 : ℝ)⟩] := by
  rw [generate_book_recommendations]
  rw [if_neg (by simp)]
  rw [if_neg (by simp [sampleMatrix])]
  rw [if_neg (by rw [sample_selected]; simp)]
  rw [if_neg (by rw [sample_rated]; simp)]
  rw [if_neg (by rw [sample_selected, sample_sumAbs]; norm_num)]
  rw [if_neg (by rw [sample_positiveScores]; simp)]
  rw [sample_finalRanking]
  simp [mkBookRec, sampleMeta, List.lookup]

lemma sample_result_take_zero :
    generate_book_recommendations Real.sqrt Real.exp [1] (sampleMatrix ℝ)
      sampleMeta 30 0 = [] := by
  rw [generate_book_recommendations]
  rw [if_neg (by simp)]
  rw [if_neg (by simp [sampleMatrix])]
  rw [if_neg (by rw [sample_selected]; simp)]
  rw [if_neg (by rw [sample_rated]; simp)]
  rw [if_neg (by rw [sample_selected, sample_sumAbs]; norm_num)]
  rw [if_neg (by rw [sample_positiveScores]; simp)]
  simp

lemma selected_eq_nil_of_nonpos {sqrt : α → α} {liked : List ItemId}
    {m : RatingMatrix α} {K : ℕ}
    (h : ∀ p ∈ m.rows,
      cosineSim sqrt (prefVector m.columns liked) (fillRow p.2) ≤ 0) :
    selectedNeighbors sqrt liked m K = [] := by
  have hfil : positiveSimRows sqrt liked m = [] := by
    rw [positiveSimRows, List.filter_eq_nil_iff]
    intro t ht
    obtain ⟨p, hp, hpt⟩ := List.mem_map.mp ht
    simp only [decide_eq_true_eq, not_lt]
    rw [← hpt]
    exact h p hp
  rw [selectedNeighbors, hfil]
  simp [List.insertionSort]

lemma rated_eq_nil_of_selected_nil {sqrt : α → α} {liked : List ItemId}
    {m : RatingMatrix α} {K : ℕ}
    (h : selectedNeighbors sqrt liked m K = []) :
    ratedCandidates sqrt liked m K = [] := by
  rw [ratedCandidates, h, List.filter_eq_nil_iff]
  intro c _
  simp

lemma rated_eq_nil_of_none {sqrt : α → α} {liked : List ItemId}
    {m : RatingMatrix α} {K : ℕ}
    (h : ∀ c ∈ candidateItems liked m, ∀ t ∈ selectedNeighbors sqrt liked m K,
      entry m.columns t.2.1 c = none) :
    ratedCandidates sqrt liked m K = [] := by
  rw [ratedCandidates, List.filter_eq_nil_iff]
  intro c hc
  simp only [List.any_eq_true, not_exists]
  intro t
  simp only [not_and]
  intro ht
  rw [h c hc t ht]
  simp

lemma positiveScores_eq_nil_of_rated_nil {sqrt : α → α} {liked : List ItemId}
    {m : RatingMatrix α} {K : ℕ}
    (h : ratedCandidates sqrt liked m K = []) :
    positiveScores sqrt liked m K = [] := by
  rw [positiveScores, h]
  rfl

lemma positiveScores_eq_nil_of_nonpos {sqrt : α → α} {liked : List ItemId}
    {m : RatingMatrix α} {K : ℕ}
    (h : ∀ c ∈ ratedCandidates sqrt liked m K,
      predictedScore m.columns (selectedNeighbors sqrt liked m K) c ≤ 0) :
    positiveScores sqrt liked m K = [] := by
  rw [positiveScores, List.filter_eq_nil_iff]
  intro p hp
  obtain ⟨c, hc, hcp⟩ := List.mem_map.mp hp
  simp only [decide_eq_true_eq, not_lt]
  rw [← hcp]
  exact h c hc

lemma positiveScores_eq_nil_of_sumAbs_zero {sqrt : α → α} {liked : List ItemId}
    {m : RatingMatrix α} {K : ℕ}
    (h : sumAbsSim (selectedNeighbors sqrt liked m K) = 0) :
    positiveScores sqrt liked m K = [] := by
  apply positiveScores_eq_nil_of_nonpos
  intro c _
  rw [predictedScore, h, div_zero]

lemma finalRanking_eq_nil_of_pos_nil {sqrt exp : α → α} {liked : List ItemId}
    {m : RatingMatrix α} {K : ℕ}
    (h : positiveScores sqrt liked m K = []) :
    finalRanking sqrt exp liked m K = [] := by
  rw [finalRanking, h]
  rfl

/-- Claim C2, amended: provided that the requested number of recommendations
is at least 1, the function (a total function, so no exception) returns the
empty list exactly in the six enumerated no-result conditions: empty liked
list; no liked identifier among the columns; no user with strictly positive
similarity; no candidate item with a non-missing rating from a selected
neighbor; zero sum of absolute similarity weights; no candidate with strictly
positive predicted score. -/
theorem C2_empty_iff_conditions (sqrt exp : α → α) (liked : List ItemId)
    (m : RatingMatrix α) (meta : List (ItemId × BookMeta)) (K N : ℕ)
    (hN : 1 ≤ N) :
    generate_book_recommendations sqrt exp liked m meta K N = [] ↔
      liked = [] ∨
      (∀ i ∈ liked, i ∉ m.columns) ∨
      (∀ p ∈ m.rows,
        cosineSim sqrt (prefVector m.columns liked) (fillRow p.2) ≤ 0) ∨
      (∀ c ∈ candidateItems liked m, ∀ t ∈ selectedNeighbors sqrt liked m K,
        entry m.columns t.2.1 c = none) ∨
      sumAbsSim (selectedNeighbors sqrt liked m K) = 0 ∨
      (∀ c ∈ ratedCandidates sqrt liked m K,
        predictedScore m.columns (selectedNeighbors sqrt liked m K) c ≤ 0) := by
  constructor
  · intro hempty
    by_contra hdisj
    rw [not_or, not_or, not_or, not_or, not_or] at hdisj
    obtain ⟨h1, h2, h3, h4, h5, h6⟩ := hdisj
    push_neg at h4 h6
    obtain ⟨c4, hc4, t4, ht4, he4⟩ := h4
    obtain ⟨c6, hc6, hpos6⟩ := h6
    have g3 : selectedNeighbors sqrt liked m K ≠ [] := List.ne_nil_of_mem ht4
    have g4 : ratedCandidates sqrt liked m K ≠ [] := by
      refine List.ne_nil_of_mem (a := c4) ?_
      rw [ratedCandidates]
      exact List.mem_filter.mpr ⟨hc4, List.any_eq_true.mpr
        ⟨t4, ht4, Option.isSome_iff_ne_none.mpr he4⟩⟩
    have g6 : positiveScores sqrt liked m K ≠ [] := by
      refine List.ne_nil_of_mem
        (a := (c6, predictedScore m.columns
          (selectedNeighbors sqrt liked m K) c6)) ?_
      rw [positiveScores]
      exact List.mem_filter.mpr
        ⟨List.mem_map.mpr ⟨c6, hc6, rfl⟩, by simpa using hpos6⟩
    rw [generate_book_recommendations, if_neg h1, if_neg h2, if_neg g3,
      if_neg g4, if_neg h5, if_neg g6] at hempty
    rw [List.map_eq_nil_iff, List.take_eq_nil_iff] at hempty
    rcases hempty with hN0 | hfr
    · omega
    · have hlen := finalRanking_length sqrt exp liked m K
      rw [hfr] at hlen
      exact g6 (List.length_eq_zero.mp hlen.symm)
  · intro hdisj
    rcases hdisj with h | h | h | h | h | h
    · rw [generate_book_recommendations, if_pos h]
    · rw [generate_book_recommendations]
      by_cases hl : liked = []
      · rw [if_pos hl]
      · rw [if_neg hl, if_pos h]
    · rcases genRec_cases sqrt exp liked m meta K N with hc | hc
      · exact hc
      · rw [hc, finalRanking_eq_nil_of_pos_nil
          (positiveScores_eq_nil_of_rated_nil
            (rated_eq_nil_of_selected_nil (selected_eq_nil_of_nonpos h)))]
        simp
    · rcases genRec_cases sqrt exp liked m meta K N with hc | hc
      · exact hc
      · rw [hc, finalRanking_eq_nil_of_pos_nil
          (positiveScores_eq_nil_of_rated_nil (rated_eq_nil_of_none h))]
        simp
    · rcases genRec_cases sqrt exp liked m meta K N with hc | hc
      · exact hc
      · rw [hc, finalRanking_eq_nil_of_pos_nil
          (positiveScores_eq_nil_of_sumAbs_zero h)]
        simp
    · rcases genRec_cases sqrt exp liked m meta K N with hc | hc
      · exact hc
      · rw [hc, finalRanking_eq_nil_of_pos_nil
          (positiveScores_eq_nil_of_nonpos h)]
        simp

/-- Claim C2, counterexample to the claim as stated: with `num_recs = 0` the
function returns the empty list although none of the six enumerated no-result
conditions holds, so the equivalence fails without the `num_recs ≥ 1`
proviso. -/
theorem C2_counterexample :
    generate_book_recommendations Real.sqrt Real.exp [1] (sampleMatrix ℝ)
      sampleMeta 30 0 = [] ∧
    ¬([1] = ([] : List ItemId) ∨
      (∀ i ∈ [1], i ∉ (sampleMatrix ℝ).columns) ∨
      (∀ p ∈ (sampleMatrix ℝ).rows,
        cosineSim Real.sqrt (prefVector (sampleMatrix ℝ).columns [1])
          (fillRow p.2) ≤ 0) ∨
      (∀ c ∈ candidateItems [1] (sampleMatrix ℝ),
        ∀ t ∈ selectedNeighbors Real.sqrt [1] (sampleMatrix ℝ) 30,
        entry (sampleMatrix ℝ).columns t.2.1 c = none) ∨
      sumAbsSim (selectedNeighbors Real.sqrt [1] (sampleMatrix ℝ) 30) = 0 ∨
      (∀ c ∈ ratedCandidates Real.sqrt [1] (sampleMatrix ℝ) 30,
        predictedScore (sampleMatrix ℝ).columns
          (selectedNeighbors Real.sqrt [1] (sampleMatrix ℝ) 30) c ≤ 0)) := by
  refine ⟨sample_result_take_zero, ?_⟩
  intro hdisj
  rcases hdisj with h | h | h | h | h | h
  · simp at h
  · exact absurd (h 1 (by simp)) (by simp [sampleMatrix])
  · have hone := h (1, [some 3, some 4]) (by simp [sampleMatrix])
    have hfill : fillRow [some (3 : ℝ), some 4] = [3, 4] := by
      norm_num [fillRow]
    rw [show (sampleMatrix ℝ).columns = [1, 2] from rfl, sample_pref,
      hfill, sample_cos] at hone
    norm_num at hone
  · have hmem : ((1 : UserId), ([some (3 : ℝ), some 4] : List (Option ℝ)),
        (3 : ℝ) / 5) ∈ selectedNeighbors Real.sqrt [1] (sampleMatrix ℝ) 30 := by
      rw [sample_selected]
      exact List.mem_singleton.mpr rfl
    have hend := h 2 (by rw [sample_candidates]; simp) _ hmem
    rw [show (sampleMatrix ℝ).columns = [1, 2] from rfl, sample_entry] at hend
    cases hend
  · rw [sample_selected, sample_sumAbs] at h
    norm_num at h
  · have htwo := h 2 (by rw [sample_rated]; simp)
    rw [show (sampleMatrix ℝ).columns = [1, 2] from rfl, sample_selected,
      sample_score] at htwo
    norm_num at htwo

/-- Claim C2, witness: the amended equivalence applied at a concrete input
with `num_recs = 5`. -/
theorem C2_witness :
    (1 : ℕ) ≤ 5 ∧
    (generate_book_recommendations Real.sqrt Real.exp [1] (sampleMatrix ℝ)
        sampleMeta 30 5 = [] ↔
      [1] = ([] : List ItemId) ∨
      (∀ i ∈ [1], i ∉ (sampleMatrix ℝ).columns) ∨
      (∀ p ∈ (sampleMatrix ℝ).rows,
        cosineSim Real.sqrt (prefVector (sampleMatrix ℝ).columns [1])
          (fillRow p.2) ≤ 0) ∨
      (∀ c ∈ candidateItems [1] (sampleMatrix ℝ),
        ∀ t ∈ selectedNeighbors Real.sqrt [1] (sampleMatrix ℝ) 30,
        entry (sampleMatrix ℝ).columns t.2.1 c = none) ∨
      sumAbsSim (selectedNeighbors Real.sqrt [1] (sampleMatrix ℝ) 30) = 0 ∨
      (∀ c ∈ ratedCandidates Real.sqrt [1] (sampleMatrix ℝ) 30,
        predictedScore (sampleMatrix ℝ).columns
          (selectedNeighbors Real.sqrt [1] (sampleMatrix ℝ) 30) c ≤ 0)) :=
  ⟨by norm_num,
    C2_empty_iff_conditions Real.sqrt Real.exp [1] (sampleMatrix ℝ)
      sampleMeta 30 5 (by norm_num)⟩

/-- Claim C3, witness: at the sample input the returned record has isbn 2,
which is not among the liked items. -/
theorem C3_witness :
    ((⟨"T2", "A2", 2, (1 : ℝ)⟩ : BookRec ℝ) ∈
      generate_book_recommendations Real.sqrt Real.exp [1] (sampleMatrix ℝ)
        sampleMeta 30 5) ∧
    (⟨"T2", "A2", 2, (1 : ℝ)⟩ : BookRec ℝ).isbn ∉ [1] := by
  have hmem : (⟨"T2", "A2", 2, (1 : ℝ)⟩ : BookRec ℝ) ∈
      generate_book_recommendations Real.sqrt Real.exp [1] (sampleMatrix ℝ)
        sampleMeta 30 5 := by
    rw [sample_result]
    exact List.mem_singleton.mpr rfl
  exact ⟨hmem, C3_result_disjoint_from_liked Real.sqrt Real.exp [1]
    (sampleMatrix ℝ) sampleMeta 30 5 _ hmem⟩

/-- Claim C4, witness: the sample's selected neighbor list contains the single
row with similarity 3/5, and the theorem yields its positivity. -/
theorem C4_witness :
    (((1 : UserId), ([some (3 : ℝ), some 4] : List (Option ℝ)), (3 : ℝ) / 5) ∈
      selectedNeighbors Real.sqrt [1] (sampleMatrix ℝ) 30) ∧
    (0 : ℝ) < 3 / 5 := by
  have hmem : ((1 : UserId), ([some (3 : ℝ), some 4] : List (Option ℝ)),
      (3 : ℝ) / 5) ∈ selectedNeighbors Real.sqrt [1] (sampleMatrix ℝ) 30 := by
    rw [sample_selected]
    exact List.mem_singleton.mpr rfl
  exact ⟨hmem,
    ((C4_neighbor_selection Real.sqrt [1] (sampleMatrix ℝ) 30).1 _ hmem).2.2⟩

lemma sum_map_div (l : List α) (c : α) :
    (l.map fun y => y / c).sum = l.sum / c := by
  induction l with
  | nil => simp
  | cons x xs ih => simp [ih, add_div]

lemma softmax_denom_pos {xs : List ℝ} (hne : xs ≠ []) :
    0 < (xs.map fun x => Real.exp (x - maxList xs)).sum := by
  apply List.sum_pos
  · intro w hw
    obtain ⟨x, _, hx⟩ := List.mem_map.mp hw
    rw [← hx]
    exact Real.exp_pos _
  · simpa using hne

lemma softmax_real_mem_pos {xs : List ℝ} (hne : xs ≠ []) :
    ∀ y ∈ softmax Real.exp xs, 0 < y := by
  intro y hy
  rw [softmax, if_neg hne] at hy
  obtain ⟨z, hz, hzy⟩ := List.mem_map.mp hy
  obtain ⟨x, _, hxz⟩ := List.mem_map.mp hz
  rw [← hzy, ← hxz]
  exact div_pos (Real.exp_pos _) (softmax_denom_pos hne)

lemma softmax_real_sum {xs : List ℝ} (hne : xs ≠ []) :
    (softmax Real.exp xs).sum = 1 := by
  rw [softmax, if_neg hne, sum_map_div]
  exact div_self (ne_of_gt (softmax_denom_pos hne))

/-- Claim C5: in every non-empty result each returned score is strictly
positive, the returned scores sum to at most 1, and the sum equals 1 exactly
when the result contains every candidate with strictly positive predicted
score (the scores are a softmax distribution over the positive-score
candidates, of which the result is a prefix). -/
theorem C5_scores_softmax_distribution (sqrt : ℝ → ℝ) (liked : List ItemId)
    (m : RatingMatrix ℝ) (meta : List (ItemId × BookMeta)) (K N : ℕ)
    (hne : generate_book_recommendations sqrt Real.exp liked m meta K N ≠ []) :
    (∀ r ∈ generate_book_recommendations sqrt Real.exp liked m meta K N,
      0 < r.score) ∧
    ((generate_book_recommendations sqrt Real.exp liked m meta K N).map
      BookRec.score).sum ≤ 1 ∧
    (((generate_book_recommendations sqrt Real.exp liked m meta K N).map
      BookRec.score).sum = 1 ↔
      (generate_book_recommendations sqrt Real.exp liked m meta K N).length =
        (positiveScores sqrt liked m K).length) := by
  rcases genRec_cases sqrt Real.exp liked m meta K N with hc | hc
  · exact absurd hc hne
  have hpos_ne : positiveScores sqrt liked m K ≠ [] := by
    intro h0
    exact hne (by rw [hc, finalRanking_eq_nil_of_pos_nil h0]; simp)
  have hxs_ne : (positiveScores sqrt liked m K).map Prod.snd ≠ [] := by
    simpa using hpos_ne
  have hmem_fr : ∀ q ∈ finalRanking sqrt Real.exp liked m K, (0 : ℝ) < q.2 := by
    intro q hq
    rw [finalRanking] at hq
    obtain ⟨a, b⟩ := q
    have h1 := (List.perm_insertionSort _ _).mem_iff.mp hq
    exact softmax_real_mem_pos hxs_ne _ (List.of_mem_zip h1).2
  have hsnd : ((finalRanking sqrt Real.exp liked m K).map Prod.snd).Perm
      (softmax Real.exp ((positiveScores sqrt liked m K).map Prod.snd)) := by
    have hz : ((((positiveScores sqrt liked m K).map Prod.fst).zip
        (softmax Real.exp ((positiveScores sqrt liked m K).map Prod.snd))).map
          Prod.snd) =
        softmax Real.exp ((positiveScores sqrt liked m K).map Prod.snd) := by
      apply List.map_snd_zip
      rw [softmax_length]
      simp
    have hperm := (List.perm_insertionSort
      (fun (a b : ItemId × ℝ) => b.2 ≤ a.2)
      (((positiveScores sqrt liked m K).map Prod.fst).zip
        (softmax Real.exp
          ((positiveScores sqrt liked m K).map Prod.snd)))).map Prod.snd
    rw [hz] at hperm
    rw [finalRanking]
    exact hperm
  have hsum_all :
      ((finalRanking sqrt Real.exp liked m K).map Prod.snd).sum = 1 := by
    rw [hsnd.sum_eq, softmax_real_sum hxs_ne]
  have hpos_elems :
      ∀ y ∈ (finalRanking sqrt Real.exp liked m K).map Prod.snd, (0 : ℝ) < y := by
    intro y hy
    obtain ⟨q, hq, hqy⟩ := List.mem_map.mp hy
    rw [← hqy]
    exact hmem_fr q hq
  have htd :
      (((finalRanking sqrt Real.exp liked m K).map Prod.snd).take N).sum +
        (((finalRanking sqrt Real.exp liked m K).map Prod.snd).drop N).sum =
          1 := by
    rw [← List.sum_append, List.take_append_drop, hsum_all]
  have hdrop_nonneg :
      0 ≤ (((finalRanking sqrt Real.exp liked m K).map Prod.snd).drop N).sum :=
    List.sum_nonneg fun y hy =>
      le_of_lt (hpos_elems y (List.drop_subset _ _ hy))
  have hscores :
      (generate_book_recommendations sqrt Real.exp liked m meta K N).map
        BookRec.score =
      ((finalRanking sqrt Real.exp liked m K).map Prod.snd).take N := by
    rw [hc, List.map_map, ← List.map_take]
    exact List.map_congr_left fun p _ => mkBookRec_score meta p
  have hreslen :
      (generate_book_recommendations sqrt Real.exp liked m meta K N).length =
        min N (finalRanking sqrt Real.exp liked m K).length := by
    rw [hc, List.length_map, List.length_take]
  refine ⟨?_, ?_, ?_⟩
  · intro r hr
    rw [hc] at hr
    obtain ⟨p, hp, hpr⟩ := List.mem_map.mp hr
    rw [← hpr, mkBookRec_score]
    exact hmem_fr p (List.take_subset _ _ hp)
  · rw [hscores]
    linarith
  · rw [hscores, hreslen, ← finalRanking_length sqrt Real.exp liked m K]
    constructor
    · intro h1
      have hdrop0 :
          (((finalRanking sqrt Real.exp liked m K).map Prod.snd).drop N).sum =
            0 := by linarith
      have hdrop_nil :
          ((finalRanking sqrt Real.exp liked m K).map Prod.snd).drop N =
            [] := by
        by_contra hdn
        have := List.sum_pos _
          (fun y hy => hpos_elems y (List.drop_subset _ _ hy)) hdn
        linarith
      rw [List.drop_eq_nil_iff, List.length_map] at hdrop_nil
      omega
    · intro h2
      have hle : (finalRanking sqrt Real.exp liked m K).length ≤ N := by omega
      have hdrop_nil :
          ((finalRanking sqrt Real.exp liked m K).map Prod.snd).drop N =
            [] := by
        rw [List.drop_eq_nil_iff, List.length_map]
        exact hle
      rw [hdrop_nil] at htd
      simpa using htd

/-- Claim C5, witness: the theorem applied at the sample input, whose result
is the single record for item 2 with softmax score 1. -/
theorem C5_witness :
    generate_book_recommendations Real.sqrt Real.exp [1] (sampleMatrix ℝ)
      sampleMeta 30 5 ≠ [] ∧
    ((∀ r ∈ generate_book_recommendations Real.sqrt Real.exp [1]
        (sampleMatrix ℝ) sampleMeta 30 5, 0 < r.score) ∧
      ((generate_book_recommendations Real.sqrt Real.exp [1] (sampleMatrix ℝ)
        sampleMeta 30 5).map BookRec.score).sum ≤ 1 ∧
      (((generate_book_recommendations Real.sqrt Real.exp [1] (sampleMatrix ℝ)
        sampleMeta 30 5).map BookRec.score).sum = 1 ↔
        (generate_book_recommendations Real.sqrt Real.exp [1] (sampleMatrix ℝ)
          sampleMeta 30 5).length =
          (positiveScores Real.sqrt [1] (sampleMatrix ℝ) 30).length)) := by
  have hne : generate_book_recommendations Real.sqrt Real.exp [1]
      (sampleMatrix ℝ) sampleMeta 30 5 ≠ [] := by
    rw [sample_result]
    simp
  exact ⟨hne, C5_scores_softmax_distribution Real.sqrt [1] (sampleMatrix ℝ)
    sampleMeta 30 5 hne⟩

lemma exp_shift_sum (xs : List ℝ) (mv : ℝ) :
    (xs.map fun x => Real.exp (x - mv)).sum =
      (xs.map Real.exp).sum * Real.exp (-mv) := by
  induction xs with
  | nil => simp
  | cons x l ih =>
      simp only [List.map_cons, List.sum_cons, ih, add_mul]
      rw [Real.exp_sub, Real.exp_neg, div_eq_mul_inv]

lemma plain_denom_pos {xs : List ℝ} (hne : xs ≠ []) :
    0 < (xs.map Real.exp).sum := by
  apply List.sum_pos
  · intro w hw
    obtain ⟨x, _, hx⟩ := List.mem_map.mp hw
    rw [← hx]
    exact Real.exp_pos _
  · simpa using hne

lemma softmax_eq_plain (xs : List ℝ) :
    softmax Real.exp xs = softmaxPlain Real.exp xs := by
  rcases eq_or_ne xs [] with h | h
  · rw [h]
    rfl
  · rw [softmax, if_neg h, softmaxPlain, List.map_map]
    apply List.map_congr_left
    intro x _
    simp only [Function.comp_apply]
    rw [exp_shift_sum, Real.exp_sub, Real.exp_neg]
    have h1 : Real.exp (maxList xs) ≠ 0 := Real.exp_ne_zero _
    have h2 : (xs.map Real.exp).sum ≠ 0 := (plain_denom_pos h).ne'
    field_simp

lemma orderedInsert_map_pair (f : ℝ → ℝ)
    (hf : ∀ a b : ℝ, a ≤ b ↔ f a ≤ f b) (x : ItemId × ℝ) :
    ∀ l : List (ItemId × ℝ),
      List.orderedInsert (fun a b => b.2 ≤ a.2) (x.1, f x.2)
        (l.map fun p => (p.1, f p.2)) =
      (List.orderedInsert (fun a b => b.2 ≤ a.2) x l).map fun p => (p.1, f p.2)
  | [] => rfl
  | y :: ys => by
    simp only [List.map_cons, List.orderedInsert]
    by_cases h : y.2 ≤ x.2
    · rw [if_pos ((hf _ _).mp h), if_pos h]
      simp
    · rw [if_neg (fun hc => h ((hf _ _).mpr hc)), if_neg h]
      rw [List.map_cons, orderedInsert_map_pair f hf x ys]

lemma insertionSort_map_pair (f : ℝ → ℝ)
    (hf : ∀ a b : ℝ, a ≤ b ↔ f a ≤ f b) :
    ∀ l : List (ItemId × ℝ),
      List.insertionSort (fun a b => b.2 ≤ a.2) (l.map fun p => (p.1, f p.2)) =
      (List.insertionSort (fun a b => b.2 ≤ a.2) l).map fun p => (p.1, f p.2)
  | [] => rfl
  | x :: xs => by
    simp only [List.map_cons, List.insertionSort]
    rw [insertionSort_map_pair f hf xs]
    exact orderedInsert_map_pair f hf x _

/-- Claim C6: the max-subtracted softmax of the source equals plain softmax
over the same list; the max-subtracted normalizer is strictly monotone; hence
sorting the id-score pairs descending by softmax value yields exactly the same
ranking of ids as sorting descending by the raw scores. -/
theorem C6_softmax_order_preserved :
    (∀ xs : List ℝ, softmax Real.exp xs = softmaxPlain Real.exp xs) ∧
    (∀ xs : List ℝ, xs ≠ [] → ∀ x y : ℝ,
      (Real.exp (x - maxList xs) /
          (xs.map fun z => Real.exp (z - maxList xs)).sum <
        Real.exp (y - maxList xs) /
          (xs.map fun z => Real.exp (z - maxList xs)).sum ↔ x < y)) ∧
    (∀ (ids : List ItemId) (xs : List ℝ),
      (List.insertionSort (fun a b => b.2 ≤ a.2)
        (ids.zip (softmax Real.exp xs))).map Prod.fst =
      (List.insertionSort (fun a b => b.2 ≤ a.2) (ids.zip xs)).map
        Prod.fst) := by
  refine ⟨softmax_eq_plain, ?_, ?_⟩
  · intro xs hne x y
    have hS := softmax_denom_pos hne
    rw [div_lt_div_iff_of_pos_right hS, Real.exp_lt_exp]
    exact sub_lt_sub_iff_right _
  · intro ids xs
    rcases eq_or_ne xs [] with h | h
    · rw [h, softmax, if_pos rfl, List.zip_nil_right]
    · have hS := softmax_denom_pos h
      have hsm : softmax Real.exp xs =
          xs.map fun x => Real.exp (x - maxList xs) /
            (xs.map fun z => Real.exp (z - maxList xs)).sum := by
        rw [softmax, if_neg h, List.map_map]
        rfl
      have hf : ∀ a b : ℝ, a ≤ b ↔
          Real.exp (a - maxList xs) /
            (xs.map fun z => Real.exp (z - maxList xs)).sum ≤
          Real.exp (b - maxList xs) /
            (xs.map fun z => Real.exp (z - maxList xs)).sum := by
        intro a b
        rw [div_le_div_iff_of_pos_right hS, Real.exp_le_exp,
          sub_le_sub_iff_right]
      have hzip : ids.zip (softmax Real.exp xs) =
          (ids.zip xs).map fun p =>
            (p.1, Real.exp (p.2 - maxList xs) /
              (xs.map fun z => Real.exp (z - maxList xs)).sum) := by
        rw [hsm, List.zip_map_right]
        rfl
      rw [hzip, insertionSort_map_pair _ hf, List.map_map]
      rfl

/-- Claim C6, witness: the strict-monotonicity component applied to the
concrete list `[0, 1]` with `x = 0` and `y = 1`. -/
theorem C6_witness :
    ([(0 : ℝ), 1] ≠ ([] : List ℝ)) ∧
    (Real.exp ((0 : ℝ) - maxList [(0 : ℝ), 1]) /
        (([(0 : ℝ), 1]).map fun z => Real.exp (z - maxList [(0 : ℝ), 1])).sum <
      Real.exp ((1 : ℝ) - maxList [(0 : ℝ), 1]) /
        (([(0 : ℝ), 1]).map fun z => Real.exp (z - maxList [(0 : ℝ), 1])).sum ↔
      (0 : ℝ) < 1) := by
  have hne : [(0 : ℝ), 1] ≠ [] := by simp
  exact ⟨hne, C6_softmax_order_preserved.2.1 [(0 : ℝ), 1] hne 0 1⟩

/-- Claim C9: the call never mutates the rating matrix: after the call the
stored matrix has the same column labels and the same rows (entries and
missingness included) as before, and the result is the one computed from the
original matrix. -/
theorem C9_matrix_unchanged (sqrt exp : α → α) (liked : List ItemId)
    (m : RatingMatrix α) (meta : List (ItemId × BookMeta)) (K N : ℕ) :
    (generate_book_recommendations_st sqrt exp liked m meta K N).2.columns =
      m.columns ∧
    (generate_book_recommendations_st sqrt exp liked m meta K N).2.rows =
      m.rows ∧
    (generate_book_recommendations_st sqrt exp liked m meta K N).1 =
      generate_book_recommendations sqrt exp liked m meta K N :=
  ⟨rfl, rfl, rfl⟩

lemma setEntryOne_map (i : ItemId) (f : ItemId → α) :
    ∀ columns : List ItemId,
      setEntryOne columns (columns.map f) i =
        columns.map fun c => if c = i then 1 else f c
  | [] => rfl
  | c :: cs => by
    simp only [setEntryOne, List.map_cons, List.zip_cons_cons]
    congr 1
    exact setEntryOne_map i f cs

lemma prefVector_foldl (columns : List ItemId) :
    ∀ (liked : List ItemId) (f : ItemId → α),
      liked.foldl
        (fun v i => if i ∈ columns then setEntryOne columns v i else v)
        (columns.map f) =
      columns.map fun c => if c ∈ liked then 1 else f c
  | [], f => by simp
  | i :: rest, f => by
    simp only [List.foldl_cons]
    by_cases hic : i ∈ columns
    · rw [if_pos hic, setEntryOne_map,
        prefVector_foldl columns rest fun c => if c = i then 1 else f c]
      apply List.map_congr_left
      intro c _
      by_cases h1 : c ∈ rest
      · simp [h1]
      · by_cases h2 : c = i
        · simp [h1, h2]
        · simp [h1, h2]
    · rw [if_neg hic, prefVector_foldl columns rest f]
      apply List.map_congr_left
      intro c hc
      have h2 : c ≠ i := fun he => hic (he ▸ hc)
      by_cases h1 : c ∈ rest
      · simp [h1]
      · simp [h1, h2]

lemma prefVector_mem (columns liked : List ItemId) :
    (prefVector columns liked : List α) =
      columns.map fun c => if c ∈ liked then 1 else 0 := by
  rw [prefVector, prefVector_foldl]

lemma prefVector_congr {l1 l2 : List ItemId} (columns : List ItemId)
    (h : ∀ x, x ∈ l1 ↔ x ∈ l2) :
    (prefVector columns l1 : List α) = prefVector columns l2 := by
  rw [prefVector_mem, prefVector_mem]
  apply List.map_congr_left
  intro c _
  by_cases hc : c ∈ l1
  · rw [if_pos hc, if_pos ((h c).mp hc)]
  · rw [if_neg hc, if_neg fun hc2 => hc ((h c).mpr hc2)]

lemma candidateItems_congr {l1 l2 : List ItemId} (m : RatingMatrix α)
    (h : ∀ x, x ∈ l1 ↔ x ∈ l2) :
    candidateItems l1 m = candidateItems l2 m := by
  rw [candidateItems, candidateItems]
  congr 1
  apply List.filter_congr
  intro c _
  rw [decide_eq_decide]
  exact not_congr (h c)

/-- Claim C10: the output depends on the liked list only through membership:
two liked lists with the same set of identifiers (any order, any
multiplicity) give element-for-element identical results. -/
theorem C10_result_depends_on_liked_set (sqrt exp : α → α)
    (l1 l2 : List ItemId) (m : RatingMatrix α)
    (meta : List (ItemId × BookMeta)) (K N : ℕ)
    (h : ∀ x, x ∈ l1 ↔ x ∈ l2) :
    generate_book_recommendations sqrt exp l1 m meta K N =
      generate_book_recommendations sqrt exp l2 m meta K N := by
  have hsel : selectedNeighbors sqrt l1 m K = selectedNeighbors sqrt l2 m K := by
    rw [selectedNeighbors, selectedNeighbors, positiveSimRows, positiveSimRows,
      simRows, simRows, prefVector_congr m.columns h]
  have hrated : ratedCandidates sqrt l1 m K = ratedCandidates sqrt l2 m K := by
    rw [ratedCandidates, ratedCandidates, hsel, candidateItems_congr m h]
  have hpos : positiveScores sqrt l1 m K = positiveScores sqrt l2 m K := by
    rw [positiveScores, positiveScores, hsel, hrated]
  have hfr : finalRanking sqrt exp l1 m K = finalRanking sqrt exp l2 m K := by
    rw [finalRanking, finalRanking, hpos]
  have hnil : (l1 = []) ↔ (l2 = []) := by
    rw [List.eq_nil_iff_forall_not_mem, List.eq_nil_iff_forall_not_mem]
    exact forall_congr' fun x => not_congr (h x)
  have hall : (∀ i ∈ l1, i ∉ m.columns) ↔ (∀ i ∈ l2, i ∉ m.columns) := by
    constructor
    · intro ha i hi
      exact ha i ((h i).mpr hi)
    · intro ha i hi
      exact ha i ((h i).mp hi)
  rw [generate_book_recommendations, generate_book_recommendations, hsel,
    hrated, hpos, hfr]
  simp only [hnil, hall]

/-- Claim C10, witness: the theorem applied to the liked lists `[1]` and
`[1, 1]`, which contain the same identifiers. -/
theorem C10_witness :
    (∀ x : ItemId, x ∈ [1] ↔ x ∈ [1, 1]) ∧
    generate_book_recommendations Real.sqrt Real.exp [1] (sampleMatrix ℝ)
        sampleMeta 30 5 =
      generate_book_recommendations Real.sqrt Real.exp [1, 1] (sampleMatrix ℝ)
        sampleMeta 30 5 := by
  have h : ∀ x : ItemId, x ∈ [1] ↔ x ∈ [1, 1] := by
    intro x
    simp
  exact ⟨h, C10_result_depends_on_liked_set Real.sqrt Real.exp [1] [1, 1]
    (sampleMatrix ℝ) sampleMeta 30 5 h⟩

lemma pref_zero_of_none_found {columns liked : List ItemId}
    (h : ∀ i ∈ liked, i ∉ columns) :
    ∀ x ∈ (prefVector columns liked : List α), x = 0 := by
  rw [prefVector_mem]
  intro x hx
  obtain ⟨c, hc, hcx⟩ := List.mem_map.mp hx
  rw [← hcx, if_neg fun hcl => h c hcl hc]

lemma posSim_nil_of_pref_zero {sqrt : α → α} {liked : List ItemId}
    {m : RatingMatrix α}
    (h : ∀ x ∈ (prefVector m.columns liked : List α), x = 0) :
    positiveSimRows sqrt liked m = [] := by
  rw [positiveSimRows, List.filter_eq_nil_iff]
  intro t ht
  obtain ⟨p, _, hpt⟩ := List.mem_map.mp ht
  simp only [decide_eq_true_eq, not_lt]
  rw [← hpt]
  simp only
  rw [cosineSim, dotL_eq_zero_left h, zero_div]

lemma selected_nil_of_posSim_nil {sqrt : α → α} {liked : List ItemId}
    {m : RatingMatrix α} {K : ℕ}
    (h : positiveSimRows sqrt liked m = []) :
    selectedNeighbors sqrt liked m K = [] := by
  rw [selectedNeighbors, h]
  simp [List.insertionSort]

lemma genRec_length (sqrt exp : α → α) (liked : List ItemId)
    (m : RatingMatrix α) (meta : List (ItemId × BookMeta)) (K N : ℕ) :
    (generate_book_recommendations sqrt exp liked m meta K N).length =
      min N (positiveScores sqrt liked m K).length := by
  by_cases h1 : liked = []
  · have hpos : positiveScores sqrt liked m K = [] :=
      positiveScores_eq_nil_of_rated_nil (rated_eq_nil_of_selected_nil
        (selected_nil_of_posSim_nil (posSim_nil_of_pref_zero
          (pref_zero_of_none_found (by simp [h1])))))
    rw [generate_book_recommendations, if_pos h1, hpos]
    simp
  by_cases h2 : ∀ i ∈ liked, i ∉ m.columns
  · have hpos : positiveScores sqrt liked m K = [] :=
      positiveScores_eq_nil_of_rated_nil (rated_eq_nil_of_selected_nil
        (selected_nil_of_posSim_nil (posSim_nil_of_pref_zero
          (pref_zero_of_none_found h2))))
    rw [generate_book_recommendations, if_neg h1, if_pos h2, hpos]
    simp
  by_cases h3 : selectedNeighbors sqrt liked m K = []
  · have hpos : positiveScores sqrt liked m K = [] :=
      positiveScores_eq_nil_of_rated_nil (rated_eq_nil_of_selected_nil h3)
    rw [generate_book_recommendations, if_neg h1, if_neg h2, if_pos h3, hpos]
    simp
  by_cases h4 : ratedCandidates sqrt liked m K = []
  · have hpos : positiveScores sqrt liked m K = [] :=
      positiveScores_eq_nil_of_rated_nil h4
    rw [generate_book_recommendations, if_neg h1, if_neg h2, if_neg h3,
      if_pos h4, hpos]
    simp
  by_cases h5 : sumAbsSim (selectedNeighbors sqrt liked m K) = 0
  · have hpos : positiveScores sqrt liked m K = [] :=
      positiveScores_eq_nil_of_sumAbs_zero h5
    rw [generate_book_recommendations, if_neg h1, if_neg h2, if_neg h3,
      if_neg h4, if_pos h5, hpos]
    simp
  by_cases h6 : positiveScores sqrt liked m K = []
  · rw [generate_book_recommendations, if_neg h1, if_neg h2, if_neg h3,
      if_neg h4, if_neg h5, if_pos h6, h6]
    simp
  · rw [generate_book_recommendations, if_neg h1, if_neg h2, if_neg h3,
      if_neg h4, if_neg h5, if_neg h6]
    rw [List.length_map, List.length_take, finalRanking_length]

/-- Claim C7: the length of the returned list is at most `num_recs` and at
most the number of candidates with strictly positive predicted score; it in
fact equals the smaller of the two, so a request for more recommendations
than there are positive-score candidates returns exactly those candidates. -/
theorem C7_result_length_bounds (sqrt exp : α → α) (liked : List ItemId)
    (m : RatingMatrix α) (meta : List (ItemId × BookMeta)) (K N : ℕ) :
    (generate_book_recommendations sqrt exp liked m meta K N).length ≤ N ∧
    (generate_book_recommendations sqrt exp liked m meta K N).length ≤
      (positiveScores sqrt liked m K).length ∧
    (generate_book_recommendations sqrt exp liked m meta K N).length =
      min N (positiveScores sqrt liked m K).length := by
  have h := genRec_length sqrt exp liked m meta K N
  rw [h]
  exact ⟨Nat.min_le_left _ _, Nat.min_le_right _ _, rfl⟩
